import Mathlib

/-!
# Verification of the blob-storage workflow script (src/main.py)

Shallow embedding of the single-file workflow orchestrator. External
effects (local filesystem, cloud blob container) are modelled by explicit
state passing through a `World` record. Every call into the external SDK or
the OS can raise an exception in Python; whether a given call fails is
determined by a failure oracle `Env`, universally quantified in the
theorems. Byte strings are `List Nat`; the filesystem and the blob store
are association lists from names to byte strings.
-/

/-- Byte strings, as stored in local files and blobs. -/
abbrev Bytes := List Nat

/-- The local filesystem: an association list from file names to contents. -/
abbrev FS := List (String × Bytes)

/-- Association-list lookup (first binding wins, and writes keep at most one
binding per key). -/
def lookupKV : List (String × Bytes) → String → Option Bytes
  | [], _ => none
  | (k, v) :: rest, key => if k = key then some v else lookupKV rest key

/-- Association-list overwrite: replace the binding of `key` in place if
present, otherwise append a new binding at the end. This models both
`open(path, "w")`/`open(path, "wb")` local writes and
`upload_blob(data, overwrite=True)`. -/
def writeKV : List (String × Bytes) → String → Bytes → List (String × Bytes)
  | [], key, val => [(key, val)]
  | (k, v) :: rest, key, val =>
    if k = key then (key, val) :: rest else (k, v) :: writeKV rest key val

/-- Number of bindings of a key in an association list. -/
def countKey (m : List (String × Bytes)) (k : String) : Nat :=
  (m.filter (fun p => p.1 = k)).length

theorem lookupKV_writeKV_self (m : List (String × Bytes)) (k : String) (v : Bytes) :
    lookupKV (writeKV m k v) k = some v := by
  induction m with
  | nil => simp [writeKV, lookupKV]
  | cons p rest ih =>
    obtain ⟨a, b⟩ := p
    by_cases h : a = k
    · simp [writeKV, h, lookupKV]
    · simp [writeKV, h, lookupKV, ih]

theorem lookupKV_writeKV_ne (m : List (String × Bytes)) (k p : String) (v : Bytes)
    (h : p ≠ k) : lookupKV (writeKV m k v) p = lookupKV m p := by
  induction m with
  | nil => simp [writeKV, lookupKV, Ne.symm h]
  | cons q rest ih =>
    obtain ⟨a, b⟩ := q
    by_cases ha : a = k
    · subst ha
      simp [writeKV, lookupKV, Ne.symm h]
    · simp [writeKV, ha, lookupKV, ih]

theorem mem_keys_writeKV (m : List (String × Bytes)) (k a : String) (v : Bytes)
    (h : a ∈ (writeKV m k v).map Prod.fst) : a = k ∨ a ∈ m.map Prod.fst := by
  induction m with
  | nil => simpa [writeKV] using h
  | cons q rest ih =>
    obtain ⟨x, y⟩ := q
    by_cases hx : x = k
    · subst hx
      simpa [writeKV] using h
    · simp only [writeKV, if_neg hx, List.map_cons, List.mem_cons] at h
      rcases h with h | h
      · exact Or.inr (by simp [h])
      · rcases ih h with h | h
        · exact Or.inl h
        · exact Or.inr (by simp [List.mem_cons]; right; simpa using h)

theorem nodup_keys_writeKV (m : List (String × Bytes)) (k : String) (v : Bytes)
    (h : (m.map Prod.fst).Nodup) : ((writeKV m k v).map Prod.fst).Nodup := by
  induction m with
  | nil => simp [writeKV]
  | cons q rest ih =>
    obtain ⟨x, y⟩ := q
    simp only [List.map_cons, List.nodup_cons] at h
    by_cases hx : x = k
    · subst hx
      simpa [writeKV] using h
    · simp only [writeKV, if_neg hx, List.map_cons, List.nodup_cons]
      refine ⟨fun hc => ?_, ih h.2⟩
      rcases mem_keys_writeKV rest k x v hc with h1 | h1
      · exact hx h1
      · exact h.1 h1

theorem countKey_eq_zero_of_lookup_none (m : List (String × Bytes)) (k : String)
    (h : lookupKV m k = none) : countKey m k = 0 := by
  induction m with
  | nil => simp [countKey]
  | cons q rest ih =>
    obtain ⟨a, b⟩ := q
    by_cases ha : a = k
    · simp [lookupKV, ha] at h
    · simp only [lookupKV, if_neg ha] at h
      simpa [countKey, List.filter, ha] using ih h

theorem lookup_none_of_not_mem_keys (m : List (String × Bytes)) (k : String)
    (h : k ∉ m.map Prod.fst) : lookupKV m k = none := by
  induction m with
  | nil => simp [lookupKV]
  | cons q rest ih =>
    obtain ⟨a, b⟩ := q
    simp only [List.map_cons, List.mem_cons] at h
    push_neg at h
    simp [lookupKV, Ne.symm h.1, ih h.2]

theorem countKey_eq_one_of_nodup (m : List (String × Bytes)) (k : String) (v : Bytes)
    (hnd : (m.map Prod.fst).Nodup) (h : lookupKV m k = some v) : countKey m k = 1 := by
  induction m with
  | nil => simp [lookupKV] at h
  | cons q rest ih =>
    obtain ⟨a, b⟩ := q
    simp only [List.map_cons, List.nodup_cons] at hnd
    by_cases ha : a = k
    · subst ha
      have hz : countKey rest a = 0 :=
        countKey_eq_zero_of_lookup_none rest a (lookup_none_of_not_mem_keys rest a hnd.1)
      simp [countKey, List.filter] at hz ⊢
      exact hz
    · simp only [lookupKV, if_neg ha] at h
      simpa [countKey, List.filter, ha] using ih hnd.2 h

theorem string_append_left_cancel {p a b : String} (h : p ++ a = p ++ b) : a = b := by
  have hd : (p ++ a).data = (p ++ b).data := congrArg String.data h
  rw [String.data_append, String.data_append] at hd
  exact String.ext (List.append_cancel_left hd)

/-!
## The failure oracle and the world state
-/

/-- Failure oracle for the external collaborators. Each field says whether a
given external call raises an exception in this run. `docxAvailable` models
whether the optional rich-document library can be imported (the
`ImportError` branch of `create_sample_files`). `fsWriteFails` models an
exception from `open(path, "w"/"wb")` on a given local path; `uploadFails`,
`listFails`, `downloadFails`, `deleteFails`, `createContainerFails` model
exceptions raised by the corresponding blob-service calls. Constructing the
credential and service client for a valid, non-placeholder URL is local and
modelled as total. -/
structure Env where
  docxAvailable : Bool
  fsWriteFails : String → Bool
  createContainerFails : Bool
  uploadFails : String → Bool
  listFails : Bool
  downloadFails : String → Bool
  deleteFails : Bool

/-- The external state: local filesystem, plus the single container the
script works with (`mytestcontainer`), holding its blobs. -/
structure World where
  fs : FS
  containerExists : Bool
  blobs : List (String × Bytes)
deriving DecidableEq

/-- A blob read as performed by `download_blob`: fails (returns `none`) when
the container does not exist or the blob is absent. -/
def blobLookup (w : World) (n : String) : Option Bytes :=
  if w.containerExists then lookupKV w.blobs n else none

/-!
## Embeddings of the source functions (src/main.py)
-/

/-- `c == d` test used by the substring scan. -/
def leadsWith : List Char → List Char → Bool
  | [], _ => true
  | _ :: _, [] => false
  | c :: cs, d :: ds => c == d && leadsWith cs ds

/-- `occursIn needle hay`: does `needle` occur contiguously in `hay`?
Embeds Python's `in` test on strings. -/
def occursIn (needle : List Char) : List Char → Bool
  | [] => needle.isEmpty
  | c :: rest => leadsWith needle (c :: rest) || occursIn needle rest

/-- The placeholder token checked at src/main.py line 42. -/
def placeholderToken : String := "<your_storage_account_name>"

/-- Python's `'<your_storage_account_name>' in account_url`. -/
def containsPlaceholder (url : String) : Bool :=
  occursIn placeholderToken.data url.data

/-- Bytes of the text written to `sample1.txt` (src/main.py line 15). -/
def sample1Content : Bytes :=
  "This is a sample text file for Azure Blob Storage testing.".data.map Char.toNat

/-- Bytes of the `sample2.docx` document (src/main.py lines 22-25). The
exact binary encoding produced by the document library is irrelevant to
every claim; we use the document's text content as its bytes. -/
def sample2DocxContent : Bytes :=
  "Azure Blob DemoThis is a sample Word document for blob upload testing.".data.map Char.toNat

/-- Bytes of the fallback `sample2.txt` (src/main.py lines 29-30). -/
def sample2TxtContent : Bytes :=
  "Sample document content (as .txt since docx library not available)".data.map Char.toNat

/-- Second half of `create_sample_files` (src/main.py lines 18-30): create
`sample2.docx` if absent, falling back to `sample2.txt` when the document
library is unavailable (`ImportError` is the only exception caught there; a
filesystem write failure escapes, flagged by the `false` component). -/
def createSample2 (env : Env) (fs : FS) : FS × Bool :=
  match lookupKV fs "sample2.docx" with
  | some _ => (fs, true)
  | none =>
    if env.docxAvailable then
      if env.fsWriteFails "sample2.docx" then (fs, false)
      else (writeKV fs "sample2.docx" sample2DocxContent, true)
    else
      if env.fsWriteFails "sample2.txt" then (fs, false)
      else (writeKV fs "sample2.txt" sample2TxtContent, true)

/-- `create_sample_files` (src/main.py lines 10-30). Returns the updated
filesystem and `true`, or the partially updated filesystem and `false` when
an uncaught exception (a failed write) escapes the function. -/
def create_sample_files (env : Env) (fs : FS) : FS × Bool :=
  match lookupKV fs "sample1.txt" with
  | some _ => createSample2 env fs
  | none =>
    if env.fsWriteFails "sample1.txt" then (fs, false)
    else createSample2 env (writeKV fs "sample1.txt" sample1Content)

/-- `configure_azure_connection` (src/main.py lines 37-48): raises
(`none`) on a placeholder URL, otherwise returns a client (`some ()`). -/
def configure_azure_connection (accountUrl : String) : Option Unit :=
  if containsPlaceholder accountUrl then none else some ()

/-- `create_blob_container` (src/main.py lines 55-65): attempt creation;
creation fails when the container already exists, or when the service call
fails; both are caught, and the container handle is returned regardless. -/
def create_blob_container (env : Env) (w : World) (containerName : String) : World :=
  if w.containerExists then w
  else if env.createContainerFails then w
  else { w with containerExists := true }

/-- `upload_files_to_blob` (src/main.py lines 72-95): for each requested
name, skip it when absent locally; otherwise upload with overwrite, which
fails (caught, name not recorded) when the container is missing or the
service call fails. Returns the world and `successful_uploads` in order. -/
def upload_files_to_blob (env : Env) (w : World) : List String → World × List String
  | [] => (w, [])
  | f :: rest =>
    match lookupKV w.fs f with
    | none => upload_files_to_blob env w rest
    | some content =>
      if w.containerExists && !env.uploadFails f then
        let r := upload_files_to_blob env { w with blobs := writeKV w.blobs f content } rest
        (r.1, f :: r.2)
      else
        upload_files_to_blob env w rest

/-- `list_blobs_in_container` (src/main.py lines 102-125): enumerate blob
names; any listing failure (including a missing container) is caught and
yields the empty list. -/
def list_blobs_in_container (env : Env) (w : World) (containerName : String) : List String :=
  if env.listFails then []
  else if w.containerExists then w.blobs.map Prod.fst
  else []

/-- `download_blobs_from_storage` (src/main.py lines 132-156): for each
name, open `"downloaded_" + name` for writing (truncating it), then fetch
the blob and write its bytes; a failure at any point is caught and the name
is not recorded. Note the truncating open precedes the fetch, as in the
source. -/
def download_blobs_from_storage (env : Env) (w : World) : List String → World × List String
  | [] => (w, [])
  | n :: rest =>
    if env.fsWriteFails ("downloaded_" ++ n) then
      download_blobs_from_storage env w rest
    else
      let w1 : World := { w with fs := writeKV w.fs ("downloaded_" ++ n) [] }
      match blobLookup w1 n with
      | none => download_blobs_from_storage env w1 rest
      | some content =>
        if env.downloadFails n then
          download_blobs_from_storage env w1 rest
        else
          let w2 : World := { w1 with fs := writeKV w1.fs ("downloaded_" ++ n) content }
          let r := download_blobs_from_storage env w2 rest
          (r.1, ("downloaded_" ++ n) :: r.2)

/-- `delete_container` (src/main.py lines 163-173): returns `true` on
success (container existed and the call did not fail), `false` otherwise;
deletion removes the container and all blobs in it. -/
def delete_container (env : Env) (w : World) (containerName : String) : World × Bool :=
  if w.containerExists && !env.deleteFails then
    ({ w with containerExists := false, blobs := [] }, true)
  else (w, false)

/-- `verify_local_files` (src/main.py lines 180-194): existence status of
each expected file, in order. -/
def verify_local_files (fs : FS) (expected : List String) : List (String × Bool) :=
  expected.map (fun f => (f, (lookupKV fs f).isSome))

/-- The hardcoded `expected_files` of `main` (src/main.py line 207). -/
def expectedFiles : List String :=
  ["sample1.txt", "sample2.docx", "downloaded_sample1.txt", "downloaded_sample2.docx"]

/-- The summary dictionary returned by `main` (src/main.py lines 235-241),
one field per key of the dict literal. -/
structure Summary where
  successful_uploads : List String
  blob_names : List String
  downloaded_files : List String
  deletion_success : Bool
  file_status : List (String × Bool)
deriving DecidableEq

/-- The keys of the dict literal returned by `main` (src/main.py lines
235-241), in source order. -/
def mainSummaryKeys : List String :=
  ["successful_uploads", "blob_names", "downloaded_files", "deletion_success", "file_status"]

/-- `main` (src/main.py lines 201-245), with the configuration values
(account URL, container name, upload file list — hardcoded at src/main.py
lines 204-206) taken as parameters, matching the spec's
`run(accountUrl, containerName, uploadFileNames)`. Any exception escaping a
step reaches the catch-all at line 243 and yields `none`; in the code the
only such exceptions are the placeholder `ValueError` and an uncaught write
failure inside `create_sample_files`. -/
def mainRun (env : Env) (accountUrl containerName : String)
    (uploadFiles : List String) (w : World) : Option Summary × World :=
  let sf := create_sample_files env w.fs
  let w1 : World := { w with fs := sf.1 }
  if sf.2 = false then (none, w1)
  else
    match configure_azure_connection accountUrl with
    | none => (none, w1)
    | some _ =>
      let w2 := create_blob_container env w1 containerName
      let up := upload_files_to_blob env w2 uploadFiles
      let bns := list_blobs_in_container env up.1 containerName
      let dl := download_blobs_from_storage env up.1 up.2
      let del := delete_container env dl.1 containerName
      (some { successful_uploads := up.2
              blob_names := bns
              downloaded_files := dl.2
              deletion_success := del.2
              file_status := verify_local_files del.1.fs expectedFiles }, del.1)

/-!
## Step lemmas
-/

theorem upload_fs_eq (env : Env) : ∀ (files : List String) (w : World),
    (upload_files_to_blob env w files).1.fs = w.fs := by
  intro files
  induction files with
  | nil => intro w; rfl
  | cons f rest ih =>
    intro w
    simp only [upload_files_to_blob]
    cases hc : lookupKV w.fs f with
    | none => exact ih w
    | some content =>
      by_cases hb : w.containerExists && !env.uploadFails f
      · simp only [hb, if_true]
        exact ih _
      · simp only [hb, if_false]
        exact ih w

theorem upload_container_eq (env : Env) : ∀ (files : List String) (w : World),
    (upload_files_to_blob env w files).1.containerExists = w.containerExists := by
  intro files
  induction files with
  | nil => intro w; rfl
  | cons f rest ih =>
    intro w
    simp only [upload_files_to_blob]
    cases hc : lookupKV w.fs f with
    | none => exact ih w
    | some content =>
      by_cases hb : w.containerExists && !env.uploadFails f
      · simp only [hb, if_true]
        exact ih _
      · simp only [hb, if_false]
        exact ih w

theorem upload_sublist (env : Env) : ∀ (files : List String) (w : World),
    (upload_files_to_blob env w files).2.Sublist files := by
  intro files
  induction files with
  | nil => intro w; simp [upload_files_to_blob]
  | cons f rest ih =>
    intro w
    simp only [upload_files_to_blob]
    cases hc : lookupKV w.fs f with
    | none => exact (ih w).cons f
    | some content =>
      by_cases hb : w.containerExists && !env.uploadFails f
      · simp only [hb, if_true]
        exact (ih _).cons₂ f
      · simp only [hb, if_false]
        exact (ih w).cons f

theorem upload_mem_exists (env : Env) : ∀ (files : List String) (w : World) (f : String),
    f ∈ (upload_files_to_blob env w files).2 → (lookupKV w.fs f).isSome = true := by
  intro files
  induction files with
  | nil => intro w f h; simp [upload_files_to_blob] at h
  | cons g rest ih =>
    intro w f h
    simp only [upload_files_to_blob] at h
    cases hc : lookupKV w.fs g with
    | none =>
      rw [hc] at h
      exact ih w f h
    | some content =>
      rw [hc] at h
      by_cases hb : w.containerExists && !env.uploadFails g
      · simp only [hb, if_true, List.mem_cons] at h
        rcases h with h | h
        · subst h; simp [hc]
        · have := ih _ f h
          simpa [upload_fs_eq] using this
      · simp only [hb, if_false] at h
        exact ih w f h

theorem upload_mem_container (env : Env) : ∀ (files : List String) (w : World) (f : String),
    f ∈ (upload_files_to_blob env w files).2 → w.containerExists = true := by
  intro files
  induction files with
  | nil => intro w f h; simp [upload_files_to_blob] at h
  | cons g rest ih =>
    intro w f h
    simp only [upload_files_to_blob] at h
    cases hc : lookupKV w.fs g with
    | none =>
      rw [hc] at h
      exact ih w f h
    | some content =>
      rw [hc] at h
      by_cases hb : w.containerExists && !env.uploadFails g
      · exact (Bool.and_eq_true _ _ ▸ hb).1
      · simp only [hb, if_false] at h
        exact ih w f h

/-- Final blob store after an upload pass: a name that made it into
`successful_uploads` holds its local content at upload time; every other
name is untouched. -/
theorem upload_blobs_lookup (env : Env) : ∀ (files : List String) (w : World) (g : String),
    lookupKV (upload_files_to_blob env w files).1.blobs g =
      if g ∈ (upload_files_to_blob env w files).2 then lookupKV w.fs g
      else lookupKV w.blobs g := by
  intro files
  induction files with
  | nil => intro w g; simp [upload_files_to_blob]
  | cons f rest ih =>
    intro w g
    simp only [upload_files_to_blob]
    cases hc : lookupKV w.fs f with
    | none => exact ih w g
    | some content =>
      by_cases hb : w.containerExists && !env.uploadFails f
      · simp only [hb, if_true]
        have ihw := ih { w with blobs := writeKV w.blobs f content } g
        by_cases hg : g ∈ (upload_files_to_blob env { w with blobs := writeKV w.blobs f content } rest).2
        · simp only [hg, if_true] at ihw
          simp only [List.mem_cons, hg, or_true, if_true]
          exact ihw
        · simp only [hg, if_false] at ihw
          by_cases hgf : g = f
          · subst hgf
            simp only [List.mem_cons, true_or, if_true]
            rw [ihw]
            simp only [lookupKV_writeKV_self]
            exact hc.symm
          · simp only [List.mem_cons, hgf, hg, or_false, if_false]
            rw [ihw]
            exact lookupKV_writeKV_ne w.blobs f g content hgf
      · simp only [hb, if_false]
        exact ih w g

theorem upload_nodup_keys (env : Env) : ∀ (files : List String) (w : World),
    (w.blobs.map Prod.fst).Nodup →
    ((upload_files_to_blob env w files).1.blobs.map Prod.fst).Nodup := by
  intro files
  induction files with
  | nil => intro w h; exact h
  | cons f rest ih =>
    intro w h
    simp only [upload_files_to_blob]
    cases hc : lookupKV w.fs f with
    | none => exact ih w h
    | some content =>
      by_cases hb : w.containerExists && !env.uploadFails f
      · simp only [hb, if_true]
        exact ih _ (nodup_keys_writeKV w.blobs f content h)
      · simp only [hb, if_false]
        exact ih w h

/-- The list of successful uploads depends only on the filesystem, the
container flag and the environment, not on the blob store contents. -/
theorem upload_result_congr (env : Env) : ∀ (files : List String) (w w' : World),
    w.fs = w'.fs → w.containerExists = w'.containerExists →
    (upload_files_to_blob env w files).2 = (upload_files_to_blob env w' files).2 := by
  intro files
  induction files with
  | nil => intro w w' h1 h2; rfl
  | cons f rest ih =>
    intro w w' h1 h2
    simp only [upload_files_to_blob]
    rw [h1, h2]
    cases hc : lookupKV w'.fs f with
    | none => exact ih w w' h1 h2
    | some content =>
      by_cases hb : w'.containerExists && !env.uploadFails f
      · simp only [hb, if_true, List.cons.injEq, true_and]
        exact ih { fs := w'.fs, containerExists := w'.containerExists, blobs := writeKV w.blobs f content }
          { w' with blobs := writeKV w'.blobs f content } rfl rfl
      · simp only [hb, if_false]
        exact ih w w' h1 h2

/-- Whether the download of one name can succeed against a given world. -/
def downloadOk (env : Env) (w : World) (n : String) : Bool :=
  !env.fsWriteFails ("downloaded_" ++ n) && (blobLookup w n).isSome && !env.downloadFails n

theorem blobLookup_set_fs (w : World) (fs : FS) (n : String) :
    blobLookup { w with fs := fs } n = blobLookup w n := rfl

theorem downloadOk_set_fs (env : Env) (w : World) (fs : FS) (n : String) :
    downloadOk env { w with fs := fs } n = downloadOk env w n := rfl

theorem download_blobs_eq (env : Env) : ∀ (names : List String) (w : World),
    (download_blobs_from_storage env w names).1.blobs = w.blobs := by
  intro names
  induction names with
  | nil => intro w; rfl
  | cons n rest ih =>
    intro w
    rw [download_blobs_from_storage]
    by_cases hw : env.fsWriteFails ("downloaded_" ++ n) = true
    · rw [if_pos hw]
      exact ih w
    · simp only [if_neg hw]
      cases hb : blobLookup { w with fs := writeKV w.fs ("downloaded_" ++ n) [] } n with
      | none => exact ih _
      | some content =>
        by_cases hd : env.downloadFails n = true
        · simp only [if_pos hd]
          exact ih _
        · simp only [if_neg hd]
          exact ih _

theorem download_container_eq (env : Env) : ∀ (names : List String) (w : World),
    (download_blobs_from_storage env w names).1.containerExists = w.containerExists := by
  intro names
  induction names with
  | nil => intro w; rfl
  | cons n rest ih =>
    intro w
    rw [download_blobs_from_storage]
    by_cases hw : env.fsWriteFails ("downloaded_" ++ n) = true
    · rw [if_pos hw]
      exact ih w
    · simp only [if_neg hw]
      cases hb : blobLookup { w with fs := writeKV w.fs ("downloaded_" ++ n) [] } n with
      | none => exact ih _
      | some content =>
        by_cases hd : env.downloadFails n = true
        · simp only [if_pos hd]
          exact ih _
        · simp only [if_neg hd]
          exact ih _

/-- The recorded downloads are exactly the input names whose download
succeeds, in input order, each carrying the fixed prefix. -/
theorem download_list_char (env : Env) : ∀ (names : List String) (w : World),
    (download_blobs_from_storage env w names).2 =
      (names.filter (fun n => downloadOk env w n)).map (fun n => "downloaded_" ++ n) := by
  intro names
  induction names with
  | nil => intro w; rfl
  | cons n rest ih =>
    intro w
    rw [List.filter_cons, download_blobs_from_storage]
    by_cases hw : env.fsWriteFails ("downloaded_" ++ n) = true
    · have hok : ¬ downloadOk env w n = true := by simp [downloadOk, hw]
      rw [if_neg hok, if_pos hw, ih]
    · simp only [if_neg hw]
      cases hb : blobLookup { w with fs := writeKV w.fs ("downloaded_" ++ n) [] } n with
      | none =>
        have hb' : blobLookup w n = none := hb
        have hok : ¬ downloadOk env w n = true := by simp [downloadOk, hb']
        rw [if_neg hok]
        simp only []
        rw [ih]
        rfl
      | some content =>
        have hb' : blobLookup w n = some content := hb
        by_cases hd : env.downloadFails n = true
        · have hok : ¬ downloadOk env w n = true := by simp [downloadOk, hd]
          rw [if_neg hok]
          simp only [if_pos hd]
          rw [ih]
          rfl
        · have hok : downloadOk env w n = true := by
            simp [downloadOk, hw, hd, hb']
          rw [if_pos hok]
          simp only [if_neg hd]
          rw [ih]
          rfl

/-- A local file whose name is not a prefixed image of any processed name
is untouched by the download pass. -/
theorem download_fs_untouched (env : Env) : ∀ (names : List String) (w : World) (p : String),
    (∀ n ∈ names, p ≠ "downloaded_" ++ n) →
    lookupKV (download_blobs_from_storage env w names).1.fs p = lookupKV w.fs p := by
  intro names
  induction names with
  | nil => intro w p _; rfl
  | cons n rest ih =>
    intro w p hp
    have hpn : p ≠ "downloaded_" ++ n := hp n (List.mem_cons_self n rest)
    have hprest : ∀ m ∈ rest, p ≠ "downloaded_" ++ m :=
      fun m hm => hp m (List.mem_cons_of_mem n hm)
    rw [download_blobs_from_storage]
    by_cases hw : env.fsWriteFails ("downloaded_" ++ n) = true
    · rw [if_pos hw]
      exact ih w p hprest
    · simp only [if_neg hw]
      cases hb : blobLookup { w with fs := writeKV w.fs ("downloaded_" ++ n) [] } n with
      | none =>
        rw [ih _ p hprest]
        exact lookupKV_writeKV_ne w.fs ("downloaded_" ++ n) p [] hpn
      | some content =>
        by_cases hd : env.downloadFails n = true
        · simp only [if_pos hd]
          rw [ih _ p hprest]
          exact lookupKV_writeKV_ne w.fs ("downloaded_" ++ n) p [] hpn
        · simp only [if_neg hd]
          rw [ih _ p hprest]
          rw [lookupKV_writeKV_ne _ ("downloaded_" ++ n) p content hpn]
          exact lookupKV_writeKV_ne w.fs ("downloaded_" ++ n) p [] hpn

/-- After the download pass, a name whose download succeeds holds the blob
content in its prefixed local file, whatever was there before. -/
theorem download_fs_hit (env : Env) : ∀ (names : List String) (w : World) (n : String),
    n ∈ names → downloadOk env w n = true →
    lookupKV (download_blobs_from_storage env w names).1.fs ("downloaded_" ++ n) =
      blobLookup w n := by
  intro names
  induction names with
  | nil => intro w n h _; cases h
  | cons m rest ih =>
    intro w n hmem hok
    have hokw : (env.fsWriteFails ("downloaded_" ++ n) = false ∧
        (blobLookup w n).isSome = true) ∧ env.downloadFails n = false := by
      simpa [downloadOk, Bool.and_eq_true] using hok
    rw [download_blobs_from_storage]
    by_cases hw : env.fsWriteFails ("downloaded_" ++ m) = true
    · have hnm : n ≠ m := by
        intro he
        subst he
        rw [hokw.1.1] at hw
        cases hw
      have hr : n ∈ rest := by
        rcases List.mem_cons.mp hmem with h | h
        · exact absurd h hnm
        · exact h
      rw [if_pos hw]
      exact ih w n hr hok
    · simp only [if_neg hw]
      cases hb : blobLookup { w with fs := writeKV w.fs ("downloaded_" ++ m) [] } n with
      | none =>
        have hb0 : blobLookup w n = none := hb
        rw [hb0] at hokw
        simp at hokw
      | some c0 =>
        cases hball : blobLookup { w with fs := writeKV w.fs ("downloaded_" ++ m) [] } m with
        | none =>
          have hnm : n ≠ m := by
            intro he
            subst he
            rw [hb] at hball
            cases hball
          have hr : n ∈ rest := by
            rcases List.mem_cons.mp hmem with h | h
            · exact absurd h hnm
            · exact h
          exact ih _ n hr hok
        | some content =>
          by_cases hd : env.downloadFails m = true
          · have hnm : n ≠ m := by
              intro he
              subst he
              rw [hokw.2] at hd
              cases hd
            have hr : n ∈ rest := by
              rcases List.mem_cons.mp hmem with h | h
              · exact absurd h hnm
              · exact h
            simp only [if_pos hd]
            exact ih _ n hr hok
          · simp only [if_neg hd]
            by_cases hnm : n = m
            · subst hnm
              by_cases hr : n ∈ rest
              · exact ih _ n hr hok
              · have hnotouch : ∀ m' ∈ rest, ("downloaded_" ++ n) ≠ "downloaded_" ++ m' := by
                  intro m' hm' he
                  exact hr (string_append_left_cancel he ▸ hm')
                have := download_fs_untouched env rest { w with fs := writeKV (writeKV w.fs ("downloaded_" ++ n) []) ("downloaded_" ++ n) content } ("downloaded_" ++ n) hnotouch
                rw [this]
                rw [lookupKV_writeKV_self]
                exact hball.symm
            · have hr : n ∈ rest := by
                rcases List.mem_cons.mp hmem with h | h
                · exact absurd h hnm
                · exact h
              exact ih _ n hr hok

/-!
## Small facts about the remaining steps, and the pipeline decomposition
-/

theorem create_container_fs (env : Env) (w : World) (cn : String) :
    (create_blob_container env w cn).fs = w.fs := by
  unfold create_blob_container
  split_ifs <;> rfl

theorem create_container_blobs (env : Env) (w : World) (cn : String) :
    (create_blob_container env w cn).blobs = w.blobs := by
  unfold create_blob_container
  split_ifs <;> rfl

theorem create_container_exists (env : Env) (w : World) (cn : String) :
    (create_blob_container env w cn).containerExists =
      (w.containerExists || !env.createContainerFails) := by
  unfold create_blob_container
  split_ifs with h1 h2 <;> simp_all

theorem delete_container_snd (env : Env) (w : World) (cn : String) :
    (delete_container env w cn).2 = (w.containerExists && !env.deleteFails) := by
  unfold delete_container
  split_ifs with h <;> simp_all

theorem delete_container_fs (env : Env) (w : World) (cn : String) :
    (delete_container env w cn).1.fs = w.fs := by
  unfold delete_container
  split_ifs <;> rfl

theorem delete_container_gone (env : Env) (w : World) (cn : String)
    (h : (delete_container env w cn).2 = true) :
    (delete_container env w cn).1.containerExists = false := by
  unfold delete_container at h ⊢
  split_ifs at h ⊢ <;> simp_all

/-- World after steps 1-3 of the run (sample files, connection, container). -/
def runW2 (env : Env) (cn : String) (w : World) : World :=
  create_blob_container env { w with fs := (create_sample_files env w.fs).1 } cn

/-- World and successful uploads after step 4 of the run. -/
def runUp (env : Env) (cn : String) (files : List String) (w : World) : World × List String :=
  upload_files_to_blob env (runW2 env cn w) files

/-- World and recorded downloads after step 6 of the run. -/
def runDl (env : Env) (cn : String) (files : List String) (w : World) : World × List String :=
  download_blobs_from_storage env (runUp env cn files w).1 (runUp env cn files w).2

/-- World and deletion outcome after step 7 of the run. -/
def runDel (env : Env) (cn : String) (files : List String) (w : World) : World × Bool :=
  delete_container env (runDl env cn files w).1 cn

/-- When step 1 raises nothing and the URL is not a placeholder, the run
executes the whole pipeline and returns the summary built from it. -/
theorem mainRun_eq (env : Env) (url cn : String) (files : List String) (w : World)
    (h1 : (create_sample_files env w.fs).2 = true)
    (h2 : containsPlaceholder url = false) :
    mainRun env url cn files w =
      (some { successful_uploads := (runUp env cn files w).2
              blob_names := list_blobs_in_container env (runUp env cn files w).1 cn
              downloaded_files := (runDl env cn files w).2
              deletion_success := (runDel env cn files w).2
              file_status := verify_local_files (runDel env cn files w).1.fs expectedFiles },
        (runDel env cn files w).1) := by
  have h1' : ¬ ((create_sample_files env w.fs).2 = false) := by simp [h1]
  have hc : configure_azure_connection url = some () := by
    simp [configure_azure_connection, h2]
  simp only [mainRun, if_neg h1', hc]
  rfl

/-!
## Concrete runs used as witnesses
-/

/-- A run in which no external call fails and the document library is
available. -/
def envAllOk : Env :=
  { docxAvailable := true
    fsWriteFails := fun _ => false
    createContainerFails := false
    uploadFails := fun _ => false
    listFails := false
    downloadFails := fun _ => false
    deleteFails := false }

/-- A run in which the step-1 write of `sample1.txt` raises. -/
def envStep1Fails : Env :=
  { envAllOk with fsWriteFails := fun p => p == "sample1.txt" }

/-- A run in which only the list-blobs call raises. -/
def envListFails : Env :=
  { envAllOk with listFails := true }

/-- A well-formed account URL. -/
def demoUrl : String := "https://acct.blob.core.windows.net/"

/-- The unchanged placeholder account URL hardcoded at src/main.py line 204. -/
def placeholderUrl : String := "https://<your_storage_account_name>.blob.core.windows.net/"

/-- An empty initial world. -/
def wEmpty : World := { fs := [], containerExists := false, blobs := [] }

/-- An initial world with one small local file. -/
def wDemo : World := { fs := [("a.txt", [7])], containerExists := false, blobs := [] }

/-- A world with an existing container holding one blob. -/
def wBlob : World := { fs := [], containerExists := true, blobs := [("a.txt", [1, 2])] }

/-- A world with an existing container and a local file ready to upload. -/
def wUp : World := { fs := [("a.txt", [7])], containerExists := true, blobs := [] }

/-- The summary of the all-ok demo run uploading `a.txt`. -/
def sDemo : Summary :=
  { successful_uploads := ["a.txt"]
    blob_names := ["a.txt"]
    downloaded_files := ["downloaded_a.txt"]
    deletion_success := true
    file_status := [("sample1.txt", true), ("sample2.docx", true),
      ("downloaded_sample1.txt", false), ("downloaded_sample2.docx", false)] }

/-!
## The claims
-/

/-- Claim C1: for every run whose account URL contains the placeholder
token, the orchestrator aborts before any container or blob operation is
invoked (the container flag and blob store are untouched) and returns no
summary. -/
theorem claim_C1_placeholder_aborts (env : Env) (url cn : String) (files : List String)
    (w : World) (h : containsPlaceholder url = true) :
    (mainRun env url cn files w).1 = none ∧
    (mainRun env url cn files w).2.containerExists = w.containerExists ∧
    (mainRun env url cn files w).2.blobs = w.blobs := by
  have hc : configure_azure_connection url = none := by
    simp [configure_azure_connection, h]
  cases hsf : (create_sample_files env w.fs).2 with
  | false => simp [mainRun, hsf, hc]
  | true => simp [mainRun, hsf, hc]

/-- Witness for C1: the hardcoded placeholder URL of the script. -/
theorem claim_C1_witness :
    (mainRun envAllOk placeholderUrl "mytestcontainer" ["sample1.txt", "sample2.docx"] wEmpty).1 = none ∧
    (mainRun envAllOk placeholderUrl "mytestcontainer" ["sample1.txt", "sample2.docx"] wEmpty).2.containerExists = wEmpty.containerExists ∧
    (mainRun envAllOk placeholderUrl "mytestcontainer" ["sample1.txt", "sample2.docx"] wEmpty).2.blobs = wEmpty.blobs :=
  claim_C1_placeholder_aborts envAllOk placeholderUrl "mytestcontainer"
    ["sample1.txt", "sample2.docx"] wEmpty (by decide)

/-- Counterexample to C2 as stated: with a valid, non-placeholder URL, a
write failure inside the sample-file-creation step escapes `create_sample_files`
(only `ImportError` is caught there), reaches the catch-all in `main`, and
the run returns no summary. -/
theorem claim_C2_counterexample :
    containsPlaceholder demoUrl = false ∧
    (mainRun envStep1Fails demoUrl "mytestcontainer" ["sample1.txt", "sample2.docx"] wEmpty).1 = none := by
  exact ⟨by decide, by decide⟩

/-- Claim C2 (amended): for every run with a valid, non-placeholder account
URL in which the sample-file-creation step raises no uncaught exception,
`main` returns a summary; failures in every later step (container creation,
upload, listing, download, deletion) are non-fatal. -/
theorem claim_C2_valid_url_returns_summary (env : Env) (url cn : String)
    (files : List String) (w : World)
    (h1 : (create_sample_files env w.fs).2 = true)
    (h2 : containsPlaceholder url = false) :
    ((mainRun env url cn files w).1).isSome = true := by
  rw [mainRun_eq env url cn files w h1 h2]
  rfl

/-- Witness for the amended C2. -/
theorem claim_C2_witness :
    (create_sample_files envAllOk wEmpty.fs).2 = true ∧
    containsPlaceholder demoUrl = false ∧
    ((mainRun envAllOk demoUrl "mytestcontainer" ["sample1.txt", "sample2.docx"] wEmpty).1).isSome = true :=
  ⟨by decide, by decide,
    claim_C2_valid_url_returns_summary envAllOk demoUrl "mytestcontainer"
      ["sample1.txt", "sample2.docx"] wEmpty (by decide) (by decide)⟩

/-- Counterexample to C3 as stated: the dict literal returned by `main` does
not have exactly the four claimed keys. -/
theorem claim_C3_counterexample :
    ¬ (mainSummaryKeys =
      ["successful_uploads", "blob_names", "downloaded_files", "deletion_success"]) := by
  decide

/-- Claim C3 (amended): the summary returned by `main` has exactly five
fields — the four claimed ones plus the per-file existence mapping
`file_status`. -/
theorem claim_C3_summary_fields :
    mainSummaryKeys =
      ["successful_uploads", "blob_names", "downloaded_files", "deletion_success", "file_status"] ∧
    mainSummaryKeys.length = 5 :=
  ⟨rfl, rfl⟩

/-- Claim C4: a requested upload filename absent from the local filesystem
at upload time is excluded from `successful_uploads`, and since the
download step is driven by `successful_uploads`, its blob is never
attempted for download: every recorded download comes from a successful
upload, and the missing name's prefixed file is never recorded. -/
theorem claim_C4_missing_file_skipped (env : Env) (url cn : String) (files : List String)
    (w : World) (f : String) (s : Summary)
    (h1 : (create_sample_files env w.fs).2 = true)
    (h2 : containsPlaceholder url = false)
    (hs : (mainRun env url cn files w).1 = some s)
    (hnx : lookupKV (create_sample_files env w.fs).1 f = none) :
    f ∉ s.successful_uploads ∧
    ("downloaded_" ++ f) ∉ s.downloaded_files ∧
    (∀ d ∈ s.downloaded_files, ∃ g ∈ s.successful_uploads, d = "downloaded_" ++ g) := by
  rw [mainRun_eq env url cn files w h1 h2] at hs
  have hse := Option.some.inj hs
  subst hse
  have hnotup : f ∉ (runUp env cn files w).2 := by
    intro hf
    have hex := upload_mem_exists env files (runW2 env cn w) f hf
    have hfs : (runW2 env cn w).fs = (create_sample_files env w.fs).1 := by
      rw [runW2, create_container_fs]
    rw [hfs, hnx] at hex
    cases hex
  refine ⟨hnotup, ?_, ?_⟩
  · intro hdl
    have hdl' : ("downloaded_" ++ f) ∈ (runDl env cn files w).2 := hdl
    rw [runDl, download_list_char] at hdl'
    simp only [List.mem_map] at hdl'
    obtain ⟨g, hg, he⟩ := hdl'
    have hgf : g = f := string_append_left_cancel he
    subst hgf
    exact hnotup (List.mem_of_mem_filter hg)
  · intro d hd
    have hd' : d ∈ (runDl env cn files w).2 := hd
    rw [runDl, download_list_char] at hd'
    simp only [List.mem_map] at hd'
    obtain ⟨g, hg, he⟩ := hd'
    exact ⟨g, List.mem_of_mem_filter hg, he.symm⟩

/-- Witness for C4: a run requesting one existing and one missing file. -/
theorem claim_C4_witness :
    "missing.txt" ∉ sDemo.successful_uploads ∧
    ("downloaded_" ++ "missing.txt") ∉ sDemo.downloaded_files ∧
    (∀ d ∈ sDemo.downloaded_files, ∃ g ∈ sDemo.successful_uploads, d = "downloaded_" ++ g) :=
  claim_C4_missing_file_skipped envAllOk demoUrl "mytestcontainer" ["a.txt", "missing.txt"]
    wDemo "missing.txt" sDemo (by decide) (by decide) (by decide) (by decide)

/-- Claim C5: a file that is successfully uploaded and then successfully
downloaded in the same run ends with its prefixed local file holding
exactly the bytes the original local file had at upload time. -/
theorem claim_C5_roundtrip (env : Env) (url cn : String) (files : List String) (w : World)
    (f : String) (s : Summary)
    (h1 : (create_sample_files env w.fs).2 = true)
    (h2 : containsPlaceholder url = false)
    (hs : (mainRun env url cn files w).1 = some s)
    (hf : f ∈ s.successful_uploads)
    (hdl : ("downloaded_" ++ f) ∈ s.downloaded_files) :
    lookupKV (mainRun env url cn files w).2.fs ("downloaded_" ++ f) =
      lookupKV (create_sample_files env w.fs).1 f ∧
    (lookupKV (create_sample_files env w.fs).1 f).isSome = true := by
  have hmeq := mainRun_eq env url cn files w h1 h2
  rw [hmeq] at hs
  have hse := Option.some.inj hs
  subst hse
  have hf' : f ∈ (runUp env cn files w).2 := hf
  have hdl' : ("downloaded_" ++ f) ∈ (runDl env cn files w).2 := hdl
  rw [runDl, download_list_char] at hdl'
  simp only [List.mem_map] at hdl'
  obtain ⟨g, hg, he⟩ := hdl'
  have hgf : g = f := string_append_left_cancel he
  subst hgf
  have hok : downloadOk env (runUp env cn files w).1 g = true := (List.mem_filter.mp hg).2
  have hfs1 : (mainRun env url cn files w).2.fs = (runDl env cn files w).1.fs := by
    rw [hmeq]
    exact delete_container_fs env (runDl env cn files w).1 cn
  have hfup : g ∈ (upload_files_to_blob env (runW2 env cn w) files).2 := hf'
  have hhit := download_fs_hit env (runUp env cn files w).2 (runUp env cn files w).1 g hf' hok
  have hcont : (runUp env cn files w).1.containerExists = true := by
    rw [runUp, upload_container_eq]
    exact upload_mem_container env files (runW2 env cn w) g hfup
  have hblob : blobLookup (runUp env cn files w).1 g = lookupKV (runUp env cn files w).1.blobs g := by
    simp [blobLookup, hcont]
  have hul : lookupKV (runUp env cn files w).1.blobs g = lookupKV (runW2 env cn w).fs g := by
    rw [runUp, upload_blobs_lookup, if_pos hfup]
  constructor
  · calc lookupKV (mainRun env url cn files w).2.fs ("downloaded_" ++ g)
        = lookupKV (runDl env cn files w).1.fs ("downloaded_" ++ g) := by rw [hfs1]
      _ = blobLookup (runUp env cn files w).1 g := hhit
      _ = lookupKV (runUp env cn files w).1.blobs g := hblob
      _ = lookupKV (runW2 env cn w).fs g := hul
      _ = lookupKV (create_sample_files env w.fs).1 g := by rw [runW2, create_container_fs]
  · have hex := upload_mem_exists env files (runW2 env cn w) g hfup
    have hfs : (runW2 env cn w).fs = (create_sample_files env w.fs).1 := by
      rw [runW2, create_container_fs]
    rwa [hfs] at hex

/-- Witness for C5: the all-ok demo run uploading and downloading a.txt. -/
theorem claim_C5_witness :
    lookupKV (mainRun envAllOk demoUrl "mytestcontainer" ["a.txt"] wDemo).2.fs ("downloaded_" ++ "a.txt") =
      lookupKV (create_sample_files envAllOk wDemo.fs).1 "a.txt" ∧
    (lookupKV (create_sample_files envAllOk wDemo.fs).1 "a.txt").isSome = true :=
  claim_C5_roundtrip envAllOk demoUrl "mytestcontainer" ["a.txt"] wDemo "a.txt" sDemo
    (by decide) (by decide) (by decide) (by decide) (by decide)

/-- Claim C6: every successfully downloaded blob named n is written to the
local file named by prepending the fixed prefix to n, overwriting whatever
that file held (the final content is the blob content, for any prior
filesystem); and `downloaded_files` records exactly these prefixed names in
the order of the input (successful-upload) list. -/
theorem claim_C6_download_naming (env : Env) (w : World) (names : List String) :
    (download_blobs_from_storage env w names).2 =
      (names.filter (fun n => downloadOk env w n)).map (fun n => "downloaded_" ++ n) ∧
    ∀ n ∈ names, downloadOk env w n = true →
      lookupKV (download_blobs_from_storage env w names).1.fs ("downloaded_" ++ n) =
        blobLookup w n :=
  ⟨download_list_char env names w, fun n hn hok => download_fs_hit env names w n hn hok⟩

/-- Witness for C6: one blob downloaded onto a filesystem that already has
a stale file of the target name. -/
theorem claim_C6_witness :
    (download_blobs_from_storage envAllOk { wBlob with fs := [("downloaded_a.txt", [9])] } ["a.txt"]).2 = ["downloaded_a.txt"] ∧
    lookupKV (download_blobs_from_storage envAllOk { wBlob with fs := [("downloaded_a.txt", [9])] } ["a.txt"]).1.fs ("downloaded_" ++ "a.txt") =
      blobLookup { wBlob with fs := [("downloaded_a.txt", [9])] } "a.txt" := by
  constructor
  · rw [(claim_C6_download_naming envAllOk { wBlob with fs := [("downloaded_a.txt", [9])] } ["a.txt"]).1]
    decide
  · exact (claim_C6_download_naming envAllOk { wBlob with fs := [("downloaded_a.txt", [9])] } ["a.txt"]).2
      "a.txt" (by decide) (by decide)

/-- Claim C7: when the list-blobs call fails, the enumeration returns the
empty list and the run is not aborted — it still produces a summary whose
`blob_names` field is empty. -/
theorem claim_C7_list_failure (env : Env) (url cn : String) (files : List String) (w : World)
    (h1 : (create_sample_files env w.fs).2 = true)
    (h2 : containsPlaceholder url = false)
    (hlf : env.listFails = true) :
    (∀ (w2 : World) (cn2 : String), list_blobs_in_container env w2 cn2 = []) ∧
    ∃ s : Summary, (mainRun env url cn files w).1 = some s ∧ s.blob_names = [] := by
  have hempty : ∀ (w2 : World) (cn2 : String), list_blobs_in_container env w2 cn2 = [] := by
    intro w2 cn2
    simp [list_blobs_in_container, hlf]
  refine ⟨hempty, ?_⟩
  rw [mainRun_eq env url cn files w h1 h2]
  refine ⟨{ successful_uploads := (runUp env cn files w).2
            blob_names := list_blobs_in_container env (runUp env cn files w).1 cn
            downloaded_files := (runDl env cn files w).2
            deletion_success := (runDel env cn files w).2
            file_status := verify_local_files (runDel env cn files w).1.fs expectedFiles }, rfl, ?_⟩
  exact hempty (runUp env cn files w).1 cn

/-- Witness for C7: a run whose only failure is the listing call. -/
theorem claim_C7_witness :
    ∃ s : Summary, (mainRun envListFails demoUrl "mytestcontainer" ["a.txt"] wDemo).1 = some s ∧
      s.blob_names = [] :=
  (claim_C7_list_failure envListFails demoUrl "mytestcontainer" ["a.txt"] wDemo
    (by decide) (by decide) (by decide)).2

/-- Claim C8: the delete step yields `true` exactly when the deletion
succeeds (the container is there to delete — it exists initially or its
creation succeeded — and the service call does not fail) and `false` when
it fails; either way the run is non-fatal and the summary's
`deletion_success` field carries that boolean, with a `true` outcome
leaving no container behind. -/
theorem claim_C8_delete_outcome (env : Env) (url cn : String) (files : List String) (w : World)
    (h1 : (create_sample_files env w.fs).2 = true)
    (h2 : containsPlaceholder url = false) :
    ∃ s : Summary, (mainRun env url cn files w).1 = some s ∧
      s.deletion_success = ((w.containerExists || !env.createContainerFails) && !env.deleteFails) ∧
      (s.deletion_success = true → (mainRun env url cn files w).2.containerExists = false) := by
  have hmeq := mainRun_eq env url cn files w h1 h2
  have hcont : (runDl env cn files w).1.containerExists =
      (w.containerExists || !env.createContainerFails) := by
    rw [runDl, download_container_eq, runUp, upload_container_eq, runW2, create_container_exists]
  refine ⟨{ successful_uploads := (runUp env cn files w).2
            blob_names := list_blobs_in_container env (runUp env cn files w).1 cn
            downloaded_files := (runDl env cn files w).2
            deletion_success := (runDel env cn files w).2
            file_status := verify_local_files (runDel env cn files w).1.fs expectedFiles }, ?_, ?_, ?_⟩
  · rw [hmeq]
  · show (runDel env cn files w).2 = _
    rw [runDel, delete_container_snd, hcont]
  · intro hds
    have hds' : (delete_container env (runDl env cn files w).1 cn).2 = true := hds
    have hgone := delete_container_gone env (runDl env cn files w).1 cn hds'
    rw [hmeq]
    exact hgone

/-- Witness for C8: the all-ok demo run deletes its container. -/
theorem claim_C8_witness :
    ∃ s : Summary, (mainRun envAllOk demoUrl "mytestcontainer" ["a.txt"] wDemo).1 = some s ∧
      s.deletion_success = ((wDemo.containerExists || !envAllOk.createContainerFails) && !envAllOk.deleteFails) ∧
      (s.deletion_success = true → (mainRun envAllOk demoUrl "mytestcontainer" ["a.txt"] wDemo).2.containerExists = false) :=
  claim_C8_delete_outcome envAllOk demoUrl "mytestcontainer" ["a.txt"] wDemo (by decide) (by decide)

/-- Claim C9: running the upload step twice over the same filenames (with
overwrite) records the same successes, and leaves exactly one blob per
successfully uploaded filename, holding the latest local content. -/
theorem claim_C9_upload_idempotent (env : Env) (w : World) (files : List String) (f : String)
    (hnd : (w.blobs.map Prod.fst).Nodup)
    (hf : f ∈ (upload_files_to_blob env w files).2) :
    (upload_files_to_blob env (upload_files_to_blob env w files).1 files).2 =
      (upload_files_to_blob env w files).2 ∧
    countKey (upload_files_to_blob env (upload_files_to_blob env w files).1 files).1.blobs f = 1 ∧
    lookupKV (upload_files_to_blob env (upload_files_to_blob env w files).1 files).1.blobs f =
      lookupKV w.fs f := by
  have hsame : (upload_files_to_blob env (upload_files_to_blob env w files).1 files).2 =
      (upload_files_to_blob env w files).2 :=
    upload_result_congr env files (upload_files_to_blob env w files).1 w
      (upload_fs_eq env files w) (upload_container_eq env files w)
  have hf2 : f ∈ (upload_files_to_blob env (upload_files_to_blob env w files).1 files).2 := by
    rw [hsame]
    exact hf
  have hl := upload_blobs_lookup env files (upload_files_to_blob env w files).1 f
  rw [if_pos hf2] at hl
  rw [upload_fs_eq env files w] at hl
  have hex := upload_mem_exists env files w f hf
  obtain ⟨v, hv⟩ := Option.isSome_iff_exists.mp hex
  have hnd2 : ((upload_files_to_blob env (upload_files_to_blob env w files).1 files).1.blobs.map Prod.fst).Nodup :=
    upload_nodup_keys env files _ (upload_nodup_keys env files w hnd)
  refine ⟨hsame, ?_, ?_⟩
  · exact countKey_eq_one_of_nodup _ f v hnd2 (by rw [hl, hv])
  · exact hl

/-- Witness for C9: uploading a.txt twice against an existing container. -/
theorem claim_C9_witness :
    (upload_files_to_blob envAllOk (upload_files_to_blob envAllOk wUp ["a.txt"]).1 ["a.txt"]).2 =
      (upload_files_to_blob envAllOk wUp ["a.txt"]).2 ∧
    countKey (upload_files_to_blob envAllOk (upload_files_to_blob envAllOk wUp ["a.txt"]).1 ["a.txt"]).1.blobs "a.txt" = 1 ∧
    lookupKV (upload_files_to_blob envAllOk (upload_files_to_blob envAllOk wUp ["a.txt"]).1 ["a.txt"]).1.blobs "a.txt" =
      lookupKV wUp.fs "a.txt" :=
  claim_C9_upload_idempotent envAllOk wUp ["a.txt"] "a.txt" (by decide) (by decide)

/-- Claim C10: in every run, `successful_uploads` is an order-preserving
subsequence of the requested list whose members all existed locally at
upload time, and `downloaded_files` is, in order, the prefixed image of
the subsequence of `successful_uploads` whose downloads succeeded. -/
theorem claim_C10_subsequence_invariants (env : Env) (url cn : String) (files : List String)
    (w : World) (s : Summary)
    (h1 : (create_sample_files env w.fs).2 = true)
    (h2 : containsPlaceholder url = false)
    (hs : (mainRun env url cn files w).1 = some s) :
    s.successful_uploads.Sublist files ∧
    (∀ f ∈ s.successful_uploads, (lookupKV (create_sample_files env w.fs).1 f).isSome = true) ∧
    ∃ p : List String, p.Sublist s.successful_uploads ∧
      s.downloaded_files = p.map (fun n => "downloaded_" ++ n) := by
  rw [mainRun_eq env url cn files w h1 h2] at hs
  have hse := Option.some.inj hs
  subst hse
  refine ⟨upload_sublist env files (runW2 env cn w), ?_, ?_⟩
  · intro f hf
    have hex := upload_mem_exists env files (runW2 env cn w) f hf
    have hfs : (runW2 env cn w).fs = (create_sample_files env w.fs).1 := by
      rw [runW2, create_container_fs]
    rwa [hfs] at hex
  · refine ⟨(runUp env cn files w).2.filter (fun n => downloadOk env (runUp env cn files w).1 n),
      List.filter_sublist _, ?_⟩
    show (runDl env cn files w).2 = _
    rw [runDl, download_list_char]

/-- Witness for C10: the all-ok demo run. -/
theorem claim_C10_witness :
    sDemo.successful_uploads.Sublist ["a.txt"] ∧
    (∀ f ∈ sDemo.successful_uploads, (lookupKV (create_sample_files envAllOk wDemo.fs).1 f).isSome = true) ∧
    ∃ p : List String, p.Sublist sDemo.successful_uploads ∧
      sDemo.downloaded_files = p.map (fun n => "downloaded_" ++ n) :=
  claim_C10_subsequence_invariants envAllOk demoUrl "mytestcontainer" ["a.txt"] wDemo sDemo
    (by decide) (by decide) (by decide)
